import Mathlib

/-!
Verification of the keet_8 CHIP-8 interpreter core.

The definitions below are a shallow embedding of the Rust sources:
`src/emulator/opcode.rs` (decoder), `src/emulator/stack.rs` (call stack),
`src/emulator/memory.rs` (address space) and `src/emulator/mod.rs`
(the interpreter).  Machine integers (`u8`, `u16`) are modelled as `Nat`
with explicit `% 256` / `% 65536` wrapping where the Rust arithmetic wraps,
and fixed-size Rust arrays are modelled as `List Nat` together with the
explicit bounds checks that Rust performs on every index operation
(an out-of-bounds index aborts the process; we model that abort as an
explicit `panic` outcome).
-/

set_option linter.unusedTactic false
set_option linter.unreachableTactic false
set_option linter.unusedVariables false

namespace Keet8

-- constants from src/emulator/mod.rs, memory.rs and stack.rs
def NUM_REGISTERS : Nat := 16
def NUM_KEYS : Nat := 16
def VIDEO_BUFFER_WIDTH : Nat := 64
def VIDEO_BUFFER_HEIGHT : Nat := 32
def MEMORY_SIZE : Nat := 4 * 1024
def FONTSET_SIZE : Nat := 80
def STACK_SIZE : Nat := 32
def PROG_ADDR : Nat := 0x0200
def FONT_ADDR : Nat := 0x0050

-- --- opcode.rs -------------------------------------------------------------

/-- The `Instruction` enum of `opcode.rs`. -/
inductive Instruction where
  | RAW
  | CLS
  | RET
  | SYS
  | JP
  | CALL
  | SE
  | SNE
  | LD
  | ADD
  | OR
  | AND
  | XOR
  | SUB
  | SHR
  | SUBN
  | SHL
  | RND
  | DRW
  | SKP
  | SKNP
deriving DecidableEq

/-- The `AddressMode` enum of `opcode.rs`. -/
inductive AddressMode where
  | None
  | OpCode (opcode : Nat)
  | Addr (address : Nat)
  | VxByte (x byte : Nat)
  | VxVy (x y : Nat)
  | IAddr (address : Nat)
  | V0Addr (address : Nat)
  | VxVyN (x y nibble : Nat)
  | Vx (x : Nat)
  | VxDt (x : Nat)
  | VxKey (x : Nat)
  | DtVx (x : Nat)
  | StVx (x : Nat)
  | IVx (x : Nat)
  | FontVx (x : Nat)
  | BcdVx (x : Nat)
  | AddrIVx (x : Nat)
  | VxAddrI (x : Nat)
deriving DecidableEq

/-- The `Keet8Error` enum of `error.rs`. -/
inductive Keet8Error where
  | NoROMFile
  | FailedToLoadROM (rom : String)
  | CallStackEmpty
  | CallStackFull
  | InvalidAddressMode (mode : AddressMode)
deriving DecidableEq

-- the field-extraction macros `x!`, `y!`, `n!`, `kk!`, `nnn!` of opcode.rs
def opX (raw : Nat) : Nat := (raw &&& 0x0F00) >>> 8
def opY (raw : Nat) : Nat := (raw &&& 0x00F0) >>> 4
def opN (raw : Nat) : Nat := raw &&& 0x000F
def opKK (raw : Nat) : Nat := raw &&& 0x00FF
def opNNN (raw : Nat) : Nat := raw &&& 0x0FFF

/-- The `OpCode` struct of `opcode.rs`. -/
structure OpCode where
  instr : Instruction
  address_mode : AddressMode
deriving DecidableEq

/-- `OpCode::raw`: the no-op fallback carrying the raw word. -/
def OpCode.raw (opcode : Nat) : OpCode :=
  ⟨Instruction.RAW, AddressMode.OpCode opcode⟩

/-- `impl From<u16> for OpCode`: the decoder.  The Rust `match` on
`raw & 0xF000` (and the nested matches on `raw & 0x00FF` / `raw & 0x000F`)
is rendered as an equality chain. -/
def OpCode.fromRaw (raw : Nat) : OpCode :=
  if raw &&& 0xF000 = 0x0000 then
    if raw &&& 0x00FF = 0x00E0 then ⟨.CLS, .None⟩
    else if raw &&& 0x00FF = 0x00EE then ⟨.RET, .None⟩
    else OpCode.raw raw
  else if raw &&& 0xF000 = 0x1000 then ⟨.JP, .Addr (opNNN raw)⟩
  else if raw &&& 0xF000 = 0x2000 then ⟨.CALL, .Addr (opNNN raw)⟩
  else if raw &&& 0xF000 = 0x3000 then ⟨.SE, .VxByte (opX raw) (opKK raw)⟩
  else if raw &&& 0xF000 = 0x4000 then ⟨.SNE, .VxByte (opX raw) (opKK raw)⟩
  else if raw &&& 0xF000 = 0x5000 then ⟨.SE, .VxVy (opX raw) (opY raw)⟩
  else if raw &&& 0xF000 = 0x6000 then ⟨.LD, .VxByte (opX raw) (opKK raw)⟩
  else if raw &&& 0xF000 = 0x7000 then ⟨.ADD, .VxByte (opX raw) (opKK raw)⟩
  else if raw &&& 0xF000 = 0x8000 then
    if raw &&& 0x000F = 0x0000 then ⟨.LD, .VxVy (opX raw) (opY raw)⟩
    else if raw &&& 0x000F = 0x0001 then ⟨.OR, .VxVy (opX raw) (opY raw)⟩
    else if raw &&& 0x000F = 0x0002 then ⟨.AND, .VxVy (opX raw) (opY raw)⟩
    else if raw &&& 0x000F = 0x0003 then ⟨.XOR, .VxVy (opX raw) (opY raw)⟩
    else if raw &&& 0x000F = 0x0004 then ⟨.ADD, .VxVy (opX raw) (opY raw)⟩
    else if raw &&& 0x000F = 0x0005 then ⟨.SUB, .VxVy (opX raw) (opY raw)⟩
    else if raw &&& 0x000F = 0x0006 then ⟨.SHR, .VxVy (opX raw) (opY raw)⟩
    else if raw &&& 0x000F = 0x0007 then ⟨.SUBN, .VxVy (opX raw) (opY raw)⟩
    else if raw &&& 0x000F = 0x000E then ⟨.SHL, .VxVy (opX raw) (opY raw)⟩
    else OpCode.raw raw
  else if raw &&& 0xF000 = 0x9000 then ⟨.SNE, .VxVy (opX raw) (opY raw)⟩
  else if raw &&& 0xF000 = 0xA000 then ⟨.LD, .IAddr (opNNN raw)⟩
  else if raw &&& 0xF000 = 0xB000 then ⟨.JP, .V0Addr (opNNN raw)⟩
  else if raw &&& 0xF000 = 0xC000 then ⟨.RND, .VxByte (opX raw) (opKK raw)⟩
  else if raw &&& 0xF000 = 0xD000 then
    ⟨.DRW, .VxVyN (opX raw) (opY raw) (opN raw)⟩
  else if raw &&& 0xF000 = 0xE000 then
    if raw &&& 0x00FF = 0x0091 then ⟨.SKP, .Vx (opX raw)⟩
    else if raw &&& 0x00FF = 0x00A1 then ⟨.SKNP, .Vx (opX raw)⟩
    else OpCode.raw raw
  else if raw &&& 0xF000 = 0xF000 then
    if raw &&& 0x00FF = 0x0007 then ⟨.LD, .VxDt (opX raw)⟩
    else if raw &&& 0x00FF = 0x000A then ⟨.LD, .VxKey (opX raw)⟩
    else if raw &&& 0x00FF = 0x0015 then ⟨.LD, .DtVx (opX raw)⟩
    else if raw &&& 0x00FF = 0x0018 then ⟨.LD, .StVx (opX raw)⟩
    else if raw &&& 0x00FF = 0x001E then ⟨.ADD, .IVx (opX raw)⟩
    else if raw &&& 0x00FF = 0x0029 then ⟨.LD, .FontVx (opX raw)⟩
    else if raw &&& 0x00FF = 0x0033 then ⟨.LD, .BcdVx (opX raw)⟩
    else if raw &&& 0x00FF = 0x0055 then ⟨.LD, .AddrIVx (opX raw)⟩
    else if raw &&& 0x00FF = 0x0065 then ⟨.LD, .VxAddrI (opX raw)⟩
    else OpCode.raw raw
  else OpCode.raw raw

/-- Every payload field of a decoded opcode equals the fixed extraction
formula for the raw word it was decoded from; the fallback carries the raw
word itself and is tagged `RAW`. -/
def decodedFieldsOk (raw : Nat) : OpCode → Prop
  | ⟨i, AddressMode.OpCode o⟩ => o = raw ∧ i = Instruction.RAW
  | ⟨_, AddressMode.None⟩ => True
  | ⟨_, AddressMode.Addr a⟩ => a = opNNN raw
  | ⟨_, AddressMode.VxByte x b⟩ => x = opX raw ∧ b = opKK raw
  | ⟨_, AddressMode.VxVy x y⟩ => x = opX raw ∧ y = opY raw
  | ⟨_, AddressMode.IAddr a⟩ => a = opNNN raw
  | ⟨_, AddressMode.V0Addr a⟩ => a = opNNN raw
  | ⟨_, AddressMode.VxVyN x y n⟩ => x = opX raw ∧ y = opY raw ∧ n = opN raw
  | ⟨_, AddressMode.Vx x⟩ => x = opX raw
  | ⟨_, AddressMode.VxDt x⟩ => x = opX raw
  | ⟨_, AddressMode.VxKey x⟩ => x = opX raw
  | ⟨_, AddressMode.DtVx x⟩ => x = opX raw
  | ⟨_, AddressMode.StVx x⟩ => x = opX raw
  | ⟨_, AddressMode.IVx x⟩ => x = opX raw
  | ⟨_, AddressMode.FontVx x⟩ => x = opX raw
  | ⟨_, AddressMode.BcdVx x⟩ => x = opX raw
  | ⟨_, AddressMode.AddrIVx x⟩ => x = opX raw
  | ⟨_, AddressMode.VxAddrI x⟩ => x = opX raw

set_option maxHeartbeats 2000000 in
/-- C3: for every 16-bit word the decoder is a total pure function yielding
exactly one opcode (it is a Lean function), the fallback is the no-op
instruction carrying the raw word, and every payload field equals the fixed
extraction formulas `x = (w &&& 0x0F00) >>> 8`, `y = (w &&& 0x00F0) >>> 4`,
`n = w &&& 0x000F`, `kk = w &&& 0x00FF`, `nnn = w &&& 0x0FFF`. -/
theorem keet8_c3 (raw : Nat) (h : raw < 65536) :
    decodedFieldsOk raw (OpCode.fromRaw raw) := by
  unfold OpCode.fromRaw
  by_cases h1 : raw &&& 0xF000 = 0x0000
  · rw [if_pos h1]
    by_cases h2 : raw &&& 0x00FF = 0x00E0
    · rw [if_pos h2]; first | exact trivial | exact ⟨rfl, rfl⟩ | exact ⟨rfl, rfl, rfl⟩ | rfl
    rw [if_neg h2]
    by_cases h3 : raw &&& 0x00FF = 0x00EE
    · rw [if_pos h3]; first | exact trivial | exact ⟨rfl, rfl⟩ | exact ⟨rfl, rfl, rfl⟩ | rfl
    rw [if_neg h3]
    first | exact trivial | exact ⟨rfl, rfl⟩ | exact ⟨rfl, rfl, rfl⟩ | rfl
  rw [if_neg h1]
  by_cases h4 : raw &&& 0xF000 = 0x1000
  · rw [if_pos h4]; first | exact trivial | exact ⟨rfl, rfl⟩ | exact ⟨rfl, rfl, rfl⟩ | rfl
  rw [if_neg h4]
  by_cases h5 : raw &&& 0xF000 = 0x2000
  · rw [if_pos h5]; first | exact trivial | exact ⟨rfl, rfl⟩ | exact ⟨rfl, rfl, rfl⟩ | rfl
  rw [if_neg h5]
  by_cases h6 : raw &&& 0xF000 = 0x3000
  · rw [if_pos h6]; first | exact trivial | exact ⟨rfl, rfl⟩ | exact ⟨rfl, rfl, rfl⟩ | rfl
  rw [if_neg h6]
  by_cases h7 : raw &&& 0xF000 = 0x4000
  · rw [if_pos h7]; first | exact trivial | exact ⟨rfl, rfl⟩ | exact ⟨rfl, rfl, rfl⟩ | rfl
  rw [if_neg h7]
  by_cases h8 : raw &&& 0xF000 = 0x5000
  · rw [if_pos h8]; first | exact trivial | exact ⟨rfl, rfl⟩ | exact ⟨rfl, rfl, rfl⟩ | rfl
  rw [if_neg h8]
  by_cases h9 : raw &&& 0xF000 = 0x6000
  · rw [if_pos h9]; first | exact trivial | exact ⟨rfl, rfl⟩ | exact ⟨rfl, rfl, rfl⟩ | rfl
  rw [if_neg h9]
  by_cases h10 : raw &&& 0xF000 = 0x7000
  · rw [if_pos h10]; first | exact trivial | exact ⟨rfl, rfl⟩ | exact ⟨rfl, rfl, rfl⟩ | rfl
  rw [if_neg h10]
  by_cases h11 : raw &&& 0xF000 = 0x8000
  · rw [if_pos h11]
    by_cases h12 : raw &&& 0x000F = 0x0000
    · rw [if_pos h12]; first | exact trivial | exact ⟨rfl, rfl⟩ | exact ⟨rfl, rfl, rfl⟩ | rfl
    rw [if_neg h12]
    by_cases h13 : raw &&& 0x000F = 0x0001
    · rw [if_pos h13]; first | exact trivial | exact ⟨rfl, rfl⟩ | exact ⟨rfl, rfl, rfl⟩ | rfl
    rw [if_neg h13]
    by_cases h14 : raw &&& 0x000F = 0x0002
    · rw [if_pos h14]; first | exact trivial | exact ⟨rfl, rfl⟩ | exact ⟨rfl, rfl, rfl⟩ | rfl
    rw [if_neg h14]
    by_cases h15 : raw &&& 0x000F = 0x0003
    · rw [if_pos h15]; first | exact trivial | exact ⟨rfl, rfl⟩ | exact ⟨rfl, rfl, rfl⟩ | rfl
    rw [if_neg h15]
    by_cases h16 : raw &&& 0x000F = 0x0004
    · rw [if_pos h16]; first | exact trivial | exact ⟨rfl, rfl⟩ | exact ⟨rfl, rfl, rfl⟩ | rfl
    rw [if_neg h16]
    by_cases h17 : raw &&& 0x000F = 0x0005
    · rw [if_pos h17]; first | exact trivial | exact ⟨rfl, rfl⟩ | exact ⟨rfl, rfl, rfl⟩ | rfl
    rw [if_neg h17]
    by_cases h18 : raw &&& 0x000F = 0x0006
    · rw [if_pos h18]; first | exact trivial | exact ⟨rfl, rfl⟩ | exact ⟨rfl, rfl, rfl⟩ | rfl
    rw [if_neg h18]
    by_cases h19 : raw &&& 0x000F = 0x0007
    · rw [if_pos h19]; first | exact trivial | exact ⟨rfl, rfl⟩ | exact ⟨rfl, rfl, rfl⟩ | rfl
    rw [if_neg h19]
    by_cases h20 : raw &&& 0x000F = 0x000E
    · rw [if_pos h20]; first | exact trivial | exact ⟨rfl, rfl⟩ | exact ⟨rfl, rfl, rfl⟩ | rfl
    rw [if_neg h20]
    first | exact trivial | exact ⟨rfl, rfl⟩ | exact ⟨rfl, rfl, rfl⟩ | rfl
  rw [if_neg h11]
  by_cases h21 : raw &&& 0xF000 = 0x9000
  · rw [if_pos h21]; first | exact trivial | exact ⟨rfl, rfl⟩ | exact ⟨rfl, rfl, rfl⟩ | rfl
  rw [if_neg h21]
  by_cases h22 : raw &&& 0xF000 = 0xA000
  · rw [if_pos h22]; first | exact trivial | exact ⟨rfl, rfl⟩ | exact ⟨rfl, rfl, rfl⟩ | rfl
  rw [if_neg h22]
  by_cases h23 : raw &&& 0xF000 = 0xB000
  · rw [if_pos h23]; first | exact trivial | exact ⟨rfl, rfl⟩ | exact ⟨rfl, rfl, rfl⟩ | rfl
  rw [if_neg h23]
  by_cases h24 : raw &&& 0xF000 = 0xC000
  · rw [if_pos h24]; first | exact trivial | exact ⟨rfl, rfl⟩ | exact ⟨rfl, rfl, rfl⟩ | rfl
  rw [if_neg h24]
  by_cases h25 : raw &&& 0xF000 = 0xD000
  · rw [if_pos h25]; first | exact trivial | exact ⟨rfl, rfl⟩ | exact ⟨rfl, rfl, rfl⟩ | rfl
  rw [if_neg h25]
  by_cases h26 : raw &&& 0xF000 = 0xE000
  · rw [if_pos h26]
    by_cases h27 : raw &&& 0x00FF = 0x0091
    · rw [if_pos h27]; first | exact trivial | exact ⟨rfl, rfl⟩ | exact ⟨rfl, rfl, rfl⟩ | rfl
    rw [if_neg h27]
    by_cases h28 : raw &&& 0x00FF = 0x00A1
    · rw [if_pos h28]; first | exact trivial | exact ⟨rfl, rfl⟩ | exact ⟨rfl, rfl, rfl⟩ | rfl
    rw [if_neg h28]
    first | exact trivial | exact ⟨rfl, rfl⟩ | exact ⟨rfl, rfl, rfl⟩ | rfl
  rw [if_neg h26]
  by_cases h29 : raw &&& 0xF000 = 0xF000
  · rw [if_pos h29]
    by_cases h30 : raw &&& 0x00FF = 0x0007
    · rw [if_pos h30]; first | exact trivial | exact ⟨rfl, rfl⟩ | exact ⟨rfl, rfl, rfl⟩ | rfl
    rw [if_neg h30]
    by_cases h31 : raw &&& 0x00FF = 0x000A
    · rw [if_pos h31]; first | exact trivial | exact ⟨rfl, rfl⟩ | exact ⟨rfl, rfl, rfl⟩ | rfl
    rw [if_neg h31]
    by_cases h32 : raw &&& 0x00FF = 0x0015
    · rw [if_pos h32]; first | exact trivial | exact ⟨rfl, rfl⟩ | exact ⟨rfl, rfl, rfl⟩ | rfl
    rw [if_neg h32]
    by_cases h33 : raw &&& 0x00FF = 0x0018
    · rw [if_pos h33]; first | exact trivial | exact ⟨rfl, rfl⟩ | exact ⟨rfl, rfl, rfl⟩ | rfl
    rw [if_neg h33]
    by_cases h34 : raw &&& 0x00FF = 0x001E
    · rw [if_pos h34]; first | exact trivial | exact ⟨rfl, rfl⟩ | exact ⟨rfl, rfl, rfl⟩ | rfl
    rw [if_neg h34]
    by_cases h35 : raw &&& 0x00FF = 0x0029
    · rw [if_pos h35]; first | exact trivial | exact ⟨rfl, rfl⟩ | exact ⟨rfl, rfl, rfl⟩ | rfl
    rw [if_neg h35]
    by_cases h36 : raw &&& 0x00FF = 0x0033
    · rw [if_pos h36]; first | exact trivial | exact ⟨rfl, rfl⟩ | exact ⟨rfl, rfl, rfl⟩ | rfl
    rw [if_neg h36]
    by_cases h37 : raw &&& 0x00FF = 0x0055
    · rw [if_pos h37]; first | exact trivial | exact ⟨rfl, rfl⟩ | exact ⟨rfl, rfl, rfl⟩ | rfl
    rw [if_neg h37]
    by_cases h38 : raw &&& 0x00FF = 0x0065
    · rw [if_pos h38]; first | exact trivial | exact ⟨rfl, rfl⟩ | exact ⟨rfl, rfl, rfl⟩ | rfl
    rw [if_neg h38]
    first | exact trivial | exact ⟨rfl, rfl⟩ | exact ⟨rfl, rfl, rfl⟩ | rfl
  rw [if_neg h29]
  first | exact trivial | exact ⟨rfl, rfl⟩ | exact ⟨rfl, rfl, rfl⟩ | rfl

/-- Witness for C3 at the concrete word 0xD123. -/
theorem keet8_c3_witness :
    0xD123 < 65536 ∧ decodedFieldsOk 0xD123 (OpCode.fromRaw 0xD123) :=
  ⟨by decide, keet8_c3 0xD123 (by decide)⟩

/-- C9: in the 0xE000 group the decoder recognises low byte 0x91 as
skip-if-key-pressed and 0xA1 as skip-if-key-not-pressed; every other low
byte (including the conventional 0x9E) falls back to the no-op. -/
theorem keet8_c9 (raw : Nat) (h : raw < 65536)
    (he : raw &&& 0xF000 = 0xE000) :
    ((OpCode.fromRaw raw).instr = Instruction.SKP ↔ raw &&& 0x00FF = 0x91) ∧
    ((OpCode.fromRaw raw).instr = Instruction.SKNP ↔ raw &&& 0x00FF = 0xA1) ∧
    (raw &&& 0x00FF ≠ 0x91 → raw &&& 0x00FF ≠ 0xA1 →
      OpCode.fromRaw raw = OpCode.raw raw) := by
  unfold OpCode.fromRaw
  simp only [he]
  norm_num
  repeat' split
  all_goals simp_all [OpCode.raw]

/-- Witness for C9 at the concrete word 0xE19E (the conventional encoding of
skip-if-key-pressed), which this decoder sends to the no-op fallback. -/
theorem keet8_c9_witness :
    0xE19E < 65536 ∧ 0xE19E &&& 0xF000 = 0xE000 ∧
    (((OpCode.fromRaw 0xE19E).instr = Instruction.SKP ↔
        0xE19E &&& 0x00FF = 0x91) ∧
      ((OpCode.fromRaw 0xE19E).instr = Instruction.SKNP ↔
        0xE19E &&& 0x00FF = 0xA1) ∧
      (0xE19E &&& 0x00FF ≠ 0x91 → 0xE19E &&& 0x00FF ≠ 0xA1 →
        OpCode.fromRaw 0xE19E = OpCode.raw 0xE19E)) :=
  ⟨by decide, by decide, keet8_c9 0xE19E (by decide) (by decide)⟩


-- --- stack.rs ---------------------------------------------------------------

/-- The `CallStack` struct of `stack.rs`: a fixed 32-entry backing array and a
stack pointer to the next open slot. -/
structure CallStack where
  data : List Nat
  ptr : Nat
deriving DecidableEq

/-- `CallStack::new`. -/
def CallStack.new : CallStack := ⟨List.replicate STACK_SIZE 0, 0⟩

/-- `CallStack::push`. -/
def CallStack.push (s : CallStack) (addr : Nat) : Except Keet8Error CallStack :=
  if s.ptr = STACK_SIZE then Except.error Keet8Error.CallStackFull
  else Except.ok ⟨s.data.set s.ptr addr, s.ptr + 1⟩

/-- `CallStack::pop`.  The Rust method mutates the stack and returns the
popped value; we return the value together with the updated stack. -/
def CallStack.pop (s : CallStack) : Option (Nat × CallStack) :=
  if s.ptr = 0 then none
  else some (s.data.getD (s.ptr - 1) 0, ⟨s.data, s.ptr - 1⟩)

/-- A sequence of pushes, failing at the first failing push. -/
def CallStack.pushList (s : CallStack) (addrs : List Nat) :
    Except Keet8Error CallStack :=
  match addrs with
  | [] => Except.ok s
  | a :: rest =>
    match s.push a with
    | Except.ok s' => s'.pushList rest
    | Except.error e => Except.error e

theorem CallStack.pushList_ok (addrs : List Nat) :
    ∀ s : CallStack, s.ptr + addrs.length ≤ STACK_SIZE →
      ∃ s', s.pushList addrs = Except.ok s' ∧
        s'.ptr = s.ptr + addrs.length := by
  induction addrs with
  | nil => intro s _; exact ⟨s, rfl, by simp⟩
  | cons a rest ih =>
    intro s hle
    have hne : s.ptr ≠ STACK_SIZE := by
      simp only [List.length_cons] at hle; omega
    have hpush : s.push a = Except.ok ⟨s.data.set s.ptr a, s.ptr + 1⟩ := by
      simp [CallStack.push, hne]
    obtain ⟨s', h1, h2⟩ := ih ⟨s.data.set s.ptr a, s.ptr + 1⟩ (by
      simp only [List.length_cons] at hle
      show s.ptr + 1 + rest.length ≤ STACK_SIZE
      omega)
    have h2' : s'.ptr = s.ptr + 1 + rest.length := h2
    refine ⟨s', ?_, ?_⟩
    · simp [CallStack.pushList, hpush, h1]
    · simp only [List.length_cons]; omega

/-- The bounded strict-LIFO contract of the call stack: a full batch of 32
pushes from empty succeeds, one more push overflows, popping the empty stack
signals empty, and three pushes pop in reverse order. -/
def stackSpecOk (addrs : List Nat) (A B C : Nat) : Prop :=
  (∃ s', CallStack.new.pushList addrs = Except.ok s' ∧
     ∀ a, s'.push a = Except.error Keet8Error.CallStackFull) ∧
  CallStack.new.pop = none ∧
  (∃ s3 s2' s1' s0',
     CallStack.new.pushList [A, B, C] = Except.ok s3 ∧
     s3.pop = some (C, s2') ∧ s2'.pop = some (B, s1') ∧
     s1'.pop = some (A, s0'))

/-- C5: the `CallStack` is a bounded strict LIFO of capacity 32: 32 pushes
from empty all succeed and the 33rd fails with the overflow error, popping
the empty stack yields the explicit empty signal, and push(A), push(B),
push(C) followed by three pops yields C, B, A. -/
theorem keet8_c5 (addrs : List Nat) (A B C : Nat) (h : addrs.length = 32) :
    stackSpecOk addrs A B C := by
  refine ⟨?_, ?_, ?_⟩
  · obtain ⟨s', h1, h2⟩ :=
      CallStack.pushList_ok addrs CallStack.new (by simp [CallStack.new, h, STACK_SIZE])
    refine ⟨s', h1, fun a => ?_⟩
    have : s'.ptr = STACK_SIZE := by
      simpa [CallStack.new, STACK_SIZE, h] using h2
    simp [CallStack.push, this]
  · rfl
  · refine ⟨⟨(((List.replicate STACK_SIZE 0).set 0 A).set 1 B).set 2 C, 3⟩,
      ⟨(((List.replicate STACK_SIZE 0).set 0 A).set 1 B).set 2 C, 2⟩,
      ⟨(((List.replicate STACK_SIZE 0).set 0 A).set 1 B).set 2 C, 1⟩,
      ⟨(((List.replicate STACK_SIZE 0).set 0 A).set 1 B).set 2 C, 0⟩,
      ?_, ?_, ?_, ?_⟩ <;>
    simp [CallStack.pushList, CallStack.push, CallStack.pop, CallStack.new,
      STACK_SIZE, List.getD_eq_getElem?_getD, List.getElem?_set]

/-- Witness for C5 with 32 zero addresses and A, B, C = 1, 2, 3. -/
theorem keet8_c5_witness :
    (List.replicate 32 0).length = 32 ∧ stackSpecOk (List.replicate 32 0) 1 2 3 :=
  ⟨by simp, keet8_c5 (List.replicate 32 0) 1 2 3 (by simp)⟩

-- --- memory.rs --------------------------------------------------------------

/-- The `FONTSET` glyph table of `memory.rs`. -/
def FONTSET : List Nat :=
  [0xF0, 0x90, 0x90, 0x90, 0xF0,
   0x20, 0x60, 0x20, 0x20, 0x70,
   0xF0, 0x10, 0xF0, 0x80, 0xF0,
   0xF0, 0x10, 0xF0, 0x10, 0xF0,
   0x90, 0x90, 0xF0, 0x10, 0x10,
   0xF0, 0x80, 0xF0, 0x10, 0xF0,
   0xF0, 0x80, 0xF0, 0x90, 0xF0,
   0xF0, 0x10, 0x20, 0x40, 0x40,
   0xF0, 0x90, 0xF0, 0x90, 0xF0,
   0xF0, 0x90, 0xF0, 0x10, 0xF0,
   0xF0, 0x90, 0xF0, 0x90, 0x90,
   0xE0, 0x90, 0xE0, 0x90, 0xE0,
   0xF0, 0x80, 0x80, 0x80, 0xF0,
   0xE0, 0x90, 0x90, 0x90, 0xE0,
   0xF0, 0x80, 0xF0, 0x80, 0xF0,
   0xF0, 0x80, 0xF0, 0x80, 0x80]

/-- One sequential byte-copy loop (`(0..bytes.len()).for_each(|i| space[pos + i] = bytes[i])`).
Rust's indexed array write panics when the index is out of bounds;
`none` models that abort. -/
def writeBytes (space : List Nat) (pos : Nat) (bytes : List Nat) :
    Option (List Nat) :=
  match bytes with
  | [] => some space
  | b :: rest =>
    if pos < space.length then writeBytes (space.set pos b) (pos + 1) rest
    else none

/-- `Memory::new`, from the point where the ROM bytes have been read: zeroed
4096-byte space, ROM copied in at 0x0200, then the glyph table at 0x0050. -/
def Memory.newBytes (bytes : List Nat) : Option (List Nat) :=
  (writeBytes (List.replicate MEMORY_SIZE 0) PROG_ADDR bytes).bind
    (fun space => writeBytes space FONT_ADDR FONTSET)

theorem writeBytes_none (bytes : List Nat) :
    ∀ (space : List Nat) (pos : Nat), bytes ≠ [] →
      space.length < pos + bytes.length → writeBytes space pos bytes = none := by
  induction bytes with
  | nil => intro _ _ hne _; exact absurd rfl hne
  | cons b rest ih =>
    intro space pos _ hlt
    by_cases hpos : pos < space.length
    · have hrest : rest ≠ [] := by
        rcases rest with _ | ⟨r, rs⟩
        · simp at hlt; omega
        · simp
      have := ih (space.set pos b) (pos + 1) hrest (by
        simp only [List.length_set, List.length_cons] at hlt ⊢; omega)
      simp [writeBytes, hpos, this]
    · simp [writeBytes, hpos]

/-- C4 (code bug): constructing the address space from a 3585-byte ROM — one
byte longer than the 3584-byte program region — is not an explicit truncate
or error outcome: the copy loop indexes past the 4096-byte space and the
process aborts (Rust index-out-of-bounds panic). -/
theorem keet8_c4_overflow_aborts :
    Memory.newBytes (List.replicate 3585 0) = none := by
  have h : writeBytes (List.replicate MEMORY_SIZE 0) PROG_ADDR
      (List.replicate 3585 0) = none := by
    apply writeBytes_none
    · exact List.ne_nil_of_length_pos (by rw [List.length_replicate]; omega)
    · rw [List.length_replicate, List.length_replicate]
      norm_num [MEMORY_SIZE, PROG_ADDR]
  simp only [Memory.newBytes, h, Option.none_bind]


-- --- mod.rs: the Emulator ---------------------------------------------------

/-- 16-bit wrapping, for `u16` arithmetic. -/
def wrap16 (n : Nat) : Nat := n % 65536

/-- `Memory`'s `Index<u16>`: the address is masked to its low 12 bits, which
keeps every access to the 4096-byte space in bounds. -/
def memRead (m : List Nat) (addr : Nat) : Nat := m.getD (addr &&& 0x0FFF) 0

/-- `Memory`'s `IndexMut<u16>`: masked exactly like `memRead`. -/
def memWrite (m : List Nat) (addr val : Nat) : List Nat :=
  m.set (addr &&& 0x0FFF) val

/-- The `Emulator` struct of `mod.rs`. -/
structure Emulator where
  registers : List Nat
  idx : Nat
  program_counter : Nat
  delay_timer : Nat
  sound_timer : Nat
  stack : CallStack
  memory : List Nat
  video_buffer : List Nat
  keypad : List Nat
deriving DecidableEq

/-- Outcome of executing one instruction handler: the handlers mutate the
emulator and return `Result<()>`; an out-of-bounds slice index aborts the
process, modelled as `panic`. -/
inductive StepResult where
  | ok (e : Emulator)
  | err (e : Emulator) (er : Keet8Error)
  | panic
deriving DecidableEq

/-- `Emulator::raw`: the no-op fallback handler. -/
def Emulator.raw (e : Emulator) (_ : OpCode) : StepResult := StepResult.ok e

/-- `Emulator::cls`: fills the video buffer with `0x00`. -/
def Emulator.cls (e : Emulator) (_ : OpCode) : StepResult :=
  StepResult.ok {e with video_buffer := e.video_buffer.map (fun _ => 0x00)}

/-- `Emulator::ret`. -/
def Emulator.ret (e : Emulator) (_ : OpCode) : StepResult :=
  match e.stack.pop with
  | some (addr, st) =>
    StepResult.ok {e with stack := st, program_counter := addr}
  | none => StepResult.err e Keet8Error.CallStackEmpty

/-- `Emulator::sys`: does nothing. -/
def Emulator.sys (e : Emulator) (_ : OpCode) : StepResult := StepResult.ok e

/-- `Emulator::jp`. -/
def Emulator.jp (e : Emulator) (oc : OpCode) : StepResult :=
  match oc.address_mode with
  | AddressMode.Addr address => StepResult.ok {e with program_counter := address}
  | AddressMode.V0Addr address =>
    StepResult.ok
      {e with program_counter := wrap16 (e.registers.getD 0x00 0 + address)}
  | m => StepResult.err e (Keet8Error.InvalidAddressMode m)

/-- `Emulator::call`: pushes the current program counter, then jumps. -/
def Emulator.call (e : Emulator) (oc : OpCode) : StepResult :=
  match oc.address_mode with
  | AddressMode.Addr address =>
    match e.stack.push e.program_counter with
    | Except.ok st =>
      StepResult.ok {e with stack := st, program_counter := address}
    | Except.error er => StepResult.err e er
  | m => StepResult.err e (Keet8Error.InvalidAddressMode m)

/-- `Emulator::se`. -/
def Emulator.se (e : Emulator) (oc : OpCode) : StepResult :=
  match oc.address_mode with
  | AddressMode.VxByte x byte =>
    if e.registers.getD x 0 = byte then
      StepResult.ok {e with program_counter := wrap16 (e.program_counter + 2)}
    else StepResult.ok e
  | AddressMode.VxVy x y =>
    if e.registers.getD x 0 = e.registers.getD y 0 then
      StepResult.ok {e with program_counter := wrap16 (e.program_counter + 2)}
    else StepResult.ok e
  | m => StepResult.err e (Keet8Error.InvalidAddressMode m)

/-- `Emulator::sne`. -/
def Emulator.sne (e : Emulator) (oc : OpCode) : StepResult :=
  match oc.address_mode with
  | AddressMode.VxByte x byte =>
    if e.registers.getD x 0 ≠ byte then
      StepResult.ok {e with program_counter := wrap16 (e.program_counter + 2)}
    else StepResult.ok e
  | AddressMode.VxVy x y =>
    if e.registers.getD x 0 ≠ e.registers.getD y 0 then
      StepResult.ok {e with program_counter := wrap16 (e.program_counter + 2)}
    else StepResult.ok e
  | m => StepResult.err e (Keet8Error.InvalidAddressMode m)

/-- The `for i in 0..NUM_KEYS` scan of `Emulator::ld`'s `VxKey` arm: the
first (lowest) key index whose keypad flag is nonzero. -/
def firstPressed (keypad : List Nat) : Option Nat :=
  (List.range NUM_KEYS).find? (fun i => decide (0 < keypad.getD i 0))

/-- `Emulator::ld`. -/
def Emulator.ld (e : Emulator) (oc : OpCode) : StepResult :=
  match oc.address_mode with
  | AddressMode.VxByte x byte =>
    StepResult.ok {e with registers := e.registers.set x byte}
  | AddressMode.VxVy x y =>
    StepResult.ok {e with registers := e.registers.set x (e.registers.getD y 0)}
  | AddressMode.IAddr address => StepResult.ok {e with idx := address}
  | AddressMode.VxDt x =>
    StepResult.ok {e with registers := e.registers.set x e.delay_timer}
  | AddressMode.VxKey x =>
    match firstPressed e.keypad with
    | some i => StepResult.ok {e with registers := e.registers.set x i}
    | none =>
      StepResult.ok
        {e with program_counter := (e.program_counter + 65536 - 2) % 65536}
  | AddressMode.DtVx x =>
    StepResult.ok {e with delay_timer := e.registers.getD x 0}
  | AddressMode.StVx x =>
    StepResult.ok {e with sound_timer := e.registers.getD x 0}
  | AddressMode.FontVx x =>
    StepResult.ok {e with idx := wrap16 (FONT_ADDR + 5 * e.registers.getD x 0)}
  | AddressMode.BcdVx x =>
    let value := e.registers.getD x 0
    let m1 := memWrite e.memory (wrap16 (e.idx + 2)) (value % 10)
    let m2 := memWrite m1 (wrap16 (e.idx + 1)) (value / 10 % 10)
    let m3 := memWrite m2 (wrap16 (e.idx + 0)) (value / 10 / 10 % 10)
    StepResult.ok {e with memory := m3}
  | AddressMode.AddrIVx x =>
    let m := (List.range (x + 1)).foldl
      (fun m i => memWrite m (wrap16 (e.idx + i)) (e.registers.getD i 0))
      e.memory
    StepResult.ok {e with memory := m}
  | AddressMode.VxAddrI x =>
    let regs := (List.range (x + 1)).foldl
      (fun regs i => regs.set i (memRead e.memory (wrap16 (e.idx + i))))
      e.registers
    StepResult.ok {e with registers := regs}
  | m => StepResult.err e (Keet8Error.InvalidAddressMode m)

/-- `Emulator::add`.  In the `VxVy` arm the carry is written to register
0x0F first and the truncated sum to register `x` afterwards, exactly as in
the source. -/
def Emulator.add (e : Emulator) (oc : OpCode) : StepResult :=
  match oc.address_mode with
  | AddressMode.VxByte x byte =>
    StepResult.ok
      {e with registers := e.registers.set x ((e.registers.getD x 0 + byte) % 256)}
  | AddressMode.VxVy x y =>
    let sum := e.registers.getD x 0 + e.registers.getD y 0
    let regs := e.registers.set 0x0F (if 0x00FF < sum then 1 else 0)
    StepResult.ok {e with registers := regs.set x (sum &&& 0x00FF)}
  | AddressMode.IVx x =>
    StepResult.ok {e with idx := wrap16 (e.idx + e.registers.getD x 0)}
  | m => StepResult.err e (Keet8Error.InvalidAddressMode m)

/-- `Emulator::or`. -/
def Emulator.or (e : Emulator) (oc : OpCode) : StepResult :=
  match oc.address_mode with
  | AddressMode.VxVy x y =>
    StepResult.ok
      {e with registers :=
        e.registers.set x (e.registers.getD x 0 ||| e.registers.getD y 0)}
  | m => StepResult.err e (Keet8Error.InvalidAddressMode m)

/-- `Emulator::and`. -/
def Emulator.and (e : Emulator) (oc : OpCode) : StepResult :=
  match oc.address_mode with
  | AddressMode.VxVy x y =>
    StepResult.ok
      {e with registers :=
        e.registers.set x (e.registers.getD x 0 &&& e.registers.getD y 0)}
  | m => StepResult.err e (Keet8Error.InvalidAddressMode m)

/-- `Emulator::xor`. -/
def Emulator.xor (e : Emulator) (oc : OpCode) : StepResult :=
  match oc.address_mode with
  | AddressMode.VxVy x y =>
    StepResult.ok
      {e with registers :=
        e.registers.set x (e.registers.getD x 0 ^^^ e.registers.getD y 0)}
  | m => StepResult.err e (Keet8Error.InvalidAddressMode m)

/-- `u8::overflowing_sub`, for byte values (`b < 256` in every reachable
state). -/
def sub8 (a b : Nat) : Nat := (a + 256 - b % 256) % 256

/-- `Emulator::sub`: the borrow flag is written to register 0x0F first, and
the subtraction then reads the registers again, as in the source. -/
def Emulator.sub (e : Emulator) (oc : OpCode) : StepResult :=
  match oc.address_mode with
  | AddressMode.VxVy x y =>
    let regs := e.registers.set 0x0F
      (if e.registers.getD y 0 < e.registers.getD x 0 then 1 else 0)
    StepResult.ok
      {e with registers := regs.set x (sub8 (regs.getD x 0) (regs.getD y 0))}
  | m => StepResult.err e (Keet8Error.InvalidAddressMode m)

/-- `Emulator::shr`: flag first, then the shift reads the registers again. -/
def Emulator.shr (e : Emulator) (oc : OpCode) : StepResult :=
  match oc.address_mode with
  | AddressMode.VxVy x _ =>
    let regs := e.registers.set 0x0F (e.registers.getD x 0 &&& 0x01)
    StepResult.ok {e with registers := regs.set x (regs.getD x 0 >>> 1)}
  | m => StepResult.err e (Keet8Error.InvalidAddressMode m)

/-- `Emulator::subn`. -/
def Emulator.subn (e : Emulator) (oc : OpCode) : StepResult :=
  match oc.address_mode with
  | AddressMode.VxVy x y =>
    let regs := e.registers.set 0x0F
      (if e.registers.getD x 0 < e.registers.getD y 0 then 1 else 0)
    StepResult.ok
      {e with registers := regs.set x (sub8 (regs.getD y 0) (regs.getD x 0))}
  | m => StepResult.err e (Keet8Error.InvalidAddressMode m)

/-- `Emulator::shl`: the `u8` left shift keeps the low 8 bits. -/
def Emulator.shl (e : Emulator) (oc : OpCode) : StepResult :=
  match oc.address_mode with
  | AddressMode.VxVy x _ =>
    let regs := e.registers.set 0x0F ((e.registers.getD x 0 &&& 0x80) >>> 7)
    StepResult.ok {e with registers := regs.set x ((regs.getD x 0 <<< 1) % 256)}
  | m => StepResult.err e (Keet8Error.InvalidAddressMode m)

/-- `Emulator::rnd`: `rand::random::<u8>()` is an input here (`rb`), masked
with the immediate byte. -/
def Emulator.rnd (e : Emulator) (rb : Nat) (oc : OpCode) : StepResult :=
  match oc.address_mode with
  | AddressMode.VxByte x byte =>
    StepResult.ok {e with registers := e.registers.set x (rb &&& byte)}
  | m => StepResult.err e (Keet8Error.InvalidAddressMode m)

/-- One sprite bit: `sprite & (0x80 >> c)` for the sprite row byte at
`memory[idx + r]`. -/
def spritePx (mem : List Nat) (idx : Nat) (r c : Nat) : Nat :=
  memRead mem (wrap16 (idx + r)) &&& (0x80 >>> c)

/-- The row/column iteration order of `Emulator::drw`'s nested loops. -/
def pairList (height : Nat) : List (Nat × Nat) :=
  (List.range height).flatMap (fun r => (List.range 8).map (fun c => (r, c)))

/-- The body of `Emulator::drw`'s nested loops: for each set sprite bit the
video cell at `(yp + r) * 64 + (xp + c)` is collision-checked and XOR-toggled.
Rust's slice indexing aborts when that index is out of bounds (`none`). -/
def drwAux (mem : List Nat) (idx xp yp : Nat) :
    List (Nat × Nat) → List Nat → Nat → Option (List Nat × Nat)
  | [], vb, vf => some (vb, vf)
  | (r, c) :: rest, vb, vf =>
    let spx := spritePx mem idx r c
    let si := (yp + r) * VIDEO_BUFFER_WIDTH + (xp + c)
    if 0 < spx then
      if si < vb.length then
        drwAux mem idx xp yp rest (vb.set si (vb.getD si 0 ^^^ 0xFF))
          (if vb.getD si 0 = 0xFF then 1 else vf)
      else none
    else drwAux mem idx xp yp rest vb vf

/-- `Emulator::drw`: origin taken modulo 64/32, register 0x0F zeroed, then
the sprite loop; the collision flag ends up in register 0x0F. -/
def Emulator.drw (e : Emulator) (oc : OpCode) : StepResult :=
  match oc.address_mode with
  | AddressMode.VxVyN x y nibble =>
    let height := nibble
    let xp := e.registers.getD x 0 % VIDEO_BUFFER_WIDTH
    let yp := e.registers.getD y 0 % VIDEO_BUFFER_HEIGHT
    let regs := e.registers.set 0x0F 0
    match drwAux e.memory e.idx xp yp (pairList height) e.video_buffer 0 with
    | some (vb, vf) =>
      StepResult.ok {e with registers := regs.set 0x0F vf, video_buffer := vb}
    | none => StepResult.panic
  | m => StepResult.err e (Keet8Error.InvalidAddressMode m)

/-- `Emulator::skp`: indexes the 16-entry keypad with the full 8-bit value of
`Vx`; the slice index aborts when that value is out of bounds. -/
def Emulator.skp (e : Emulator) (oc : OpCode) : StepResult :=
  match oc.address_mode with
  | AddressMode.Vx x =>
    let key := e.registers.getD x 0
    if key < e.keypad.length then
      if 0 < e.keypad.getD key 0 then
        StepResult.ok {e with program_counter := wrap16 (e.program_counter + 2)}
      else StepResult.ok e
    else StepResult.panic
  | m => StepResult.err e (Keet8Error.InvalidAddressMode m)

/-- `Emulator::sknp`: like `skp`, skipping when the key is not pressed. -/
def Emulator.sknp (e : Emulator) (oc : OpCode) : StepResult :=
  match oc.address_mode with
  | AddressMode.Vx x =>
    let key := e.registers.getD x 0
    if key < e.keypad.length then
      if e.keypad.getD key 0 ≤ 0 then
        StepResult.ok {e with program_counter := wrap16 (e.program_counter + 2)}
      else StepResult.ok e
    else StepResult.panic
  | m => StepResult.err e (Keet8Error.InvalidAddressMode m)

/-- The dispatch table `self.instructions[opcode.instr as usize]` as a match
on the instruction tag. -/
def Emulator.exec (e : Emulator) (rb : Nat) (oc : OpCode) : StepResult :=
  match oc.instr with
  | Instruction.RAW => e.raw oc
  | Instruction.CLS => e.cls oc
  | Instruction.RET => e.ret oc
  | Instruction.SYS => e.sys oc
  | Instruction.JP => e.jp oc
  | Instruction.CALL => e.call oc
  | Instruction.SE => e.se oc
  | Instruction.SNE => e.sne oc
  | Instruction.LD => e.ld oc
  | Instruction.ADD => e.add oc
  | Instruction.OR => e.or oc
  | Instruction.AND => e.and oc
  | Instruction.XOR => e.xor oc
  | Instruction.SUB => e.sub oc
  | Instruction.SHR => e.shr oc
  | Instruction.SUBN => e.subn oc
  | Instruction.SHL => e.shl oc
  | Instruction.RND => e.rnd rb oc
  | Instruction.DRW => e.drw oc
  | Instruction.SKP => e.skp oc
  | Instruction.SKNP => e.sknp oc

/-- The big-endian two-byte fetch at the program counter. -/
def Emulator.fetchWord (e : Emulator) : Nat :=
  (memRead e.memory e.program_counter <<< 8) |||
    memRead e.memory (wrap16 (e.program_counter + 1))

/-- The timer decrements at the end of `Emulator::step`. -/
def tickTimers (e : Emulator) : Emulator :=
  let e1 :=
    if 0 < e.delay_timer then {e with delay_timer := e.delay_timer - 1} else e
  if 0 < e1.sound_timer then {e1 with sound_timer := e1.sound_timer - 1} else e1

/-- `Emulator::step`: fetch, advance the program counter by 2, decode,
dispatch, then decrement the timers — the `?` operator propagates a handler
error before the timers are touched. -/
def Emulator.step (rb : Nat) (e : Emulator) : StepResult :=
  let raw := e.fetchWord
  let e1 : Emulator := {e with program_counter := wrap16 (e.program_counter + 2)}
  match e1.exec rb (OpCode.fromRaw raw) with
  | StepResult.ok e2 => StepResult.ok (tickTimers e2)
  | r => r

-- --- pointwise helpers for List.set / List.getD -----------------------------

theorem getD_set_self (l : List Nat) (i v : Nat) (h : i < l.length) :
    (l.set i v).getD i 0 = v := by
  simp [List.getD_eq_getElem?_getD, List.getElem?_set_self h]

theorem getD_set_ne (l : List Nat) (i j v : Nat) (h : i ≠ j) :
    (l.set i v).getD j 0 = l.getD j 0 := by
  simp [List.getD_eq_getElem?_getD, List.getElem?_set_ne h]


/-- C10: for the register-plus-register `ADD` with destination x = 15, the
final value of VF is the truncated low byte of the sum, not the carry bit:
the carry write to register 15 is overwritten by the result store. -/
theorem keet8_c10 (e : Emulator) (y : Nat) (hy : y < 16)
    (hlen : e.registers.length = 16) :
    ∃ e2, e.add ⟨Instruction.ADD, AddressMode.VxVy 0x0F y⟩ = StepResult.ok e2 ∧
      e2.registers.getD 0x0F 0 =
        (e.registers.getD 0x0F 0 + e.registers.getD y 0) &&& 0x00FF := by
  refine ⟨_, rfl, ?_⟩
  apply getD_set_self
  simp [hlen]

/-- Witness for C10: V15 = 200, V0 = 100 gives VF = 44, the truncated sum. -/
theorem keet8_c10_witness :
    ∃ e2,
      Emulator.add
          ⟨(List.replicate 15 0) ++ [200], 0, 0, 0, 0, CallStack.new, [], [], []⟩
          ⟨Instruction.ADD, AddressMode.VxVy 0x0F 0⟩ = StepResult.ok e2 ∧
      e2.registers.getD 0x0F 0 =
        ((((List.replicate 15 0) ++ [200] : List Nat).getD 0x0F 0 +
          (((List.replicate 15 0) ++ [200] : List Nat).getD 0 0)) &&& 0x00FF) :=
  keet8_c10 ⟨(List.replicate 15 0) ++ [200], 0, 0, 0, 0, CallStack.new, [], [], []⟩
    0 (by decide) (by decide)

/-- C8: the skip-on-key handlers index the 16-entry keypad with the full
8-bit value of Vx: for Vx at most 15 the access is in bounds and both
handlers return ok, for Vx at least 16 both handlers hit the out-of-bounds
abort rather than returning an error value. -/
theorem keet8_c8 (e : Emulator) (x : Nat) (hx : x < 16)
    (hk : e.keypad.length = 16) :
    (e.registers.getD x 0 ≤ 15 →
      (∃ e1, e.skp ⟨Instruction.SKP, AddressMode.Vx x⟩ = StepResult.ok e1) ∧
      (∃ e2, e.sknp ⟨Instruction.SKNP, AddressMode.Vx x⟩ = StepResult.ok e2)) ∧
    (16 ≤ e.registers.getD x 0 →
      e.skp ⟨Instruction.SKP, AddressMode.Vx x⟩ = StepResult.panic ∧
      e.sknp ⟨Instruction.SKNP, AddressMode.Vx x⟩ = StepResult.panic) := by
  constructor
  · intro hle
    have hlt : e.registers.getD x 0 < e.keypad.length := by rw [hk]; omega
    constructor
    · by_cases hp : 0 < e.keypad.getD (e.registers.getD x 0) 0
      · exact ⟨_, by simp only [Emulator.skp]; rw [if_pos hlt, if_pos hp]⟩
      · exact ⟨_, by simp only [Emulator.skp]; rw [if_pos hlt, if_neg hp]⟩
    · by_cases hp : e.keypad.getD (e.registers.getD x 0) 0 ≤ 0
      · exact ⟨_, by simp only [Emulator.sknp]; rw [if_pos hlt, if_pos hp]⟩
      · exact ⟨_, by simp only [Emulator.sknp]; rw [if_pos hlt, if_neg hp]⟩
  · intro hge
    have hnlt : ¬ e.registers.getD x 0 < e.keypad.length := by rw [hk]; omega
    constructor
    · simp only [Emulator.skp]; rw [if_neg hnlt]
    · simp only [Emulator.sknp]; rw [if_neg hnlt]

/-- Witness for C8: with V0 = 3 both handlers return ok, and with V0 = 200
both handlers hit the out-of-bounds abort. -/
theorem keet8_c8_witness :
    ((∃ e1,
        Emulator.skp ⟨3 :: List.replicate 15 0, 0, 0, 0, 0, CallStack.new, [],
            [], List.replicate 16 0⟩ ⟨Instruction.SKP, AddressMode.Vx 0⟩ =
          StepResult.ok e1) ∧
      (∃ e2,
        Emulator.sknp ⟨3 :: List.replicate 15 0, 0, 0, 0, 0, CallStack.new, [],
            [], List.replicate 16 0⟩ ⟨Instruction.SKNP, AddressMode.Vx 0⟩ =
          StepResult.ok e2)) ∧
    (Emulator.skp ⟨200 :: List.replicate 15 0, 0, 0, 0, 0, CallStack.new, [],
        [], List.replicate 16 0⟩ ⟨Instruction.SKP, AddressMode.Vx 0⟩ =
      StepResult.panic ∧
     Emulator.sknp ⟨200 :: List.replicate 15 0, 0, 0, 0, 0, CallStack.new, [],
        [], List.replicate 16 0⟩ ⟨Instruction.SKNP, AddressMode.Vx 0⟩ =
      StepResult.panic) :=
  ⟨(keet8_c8 ⟨3 :: List.replicate 15 0, 0, 0, 0, 0, CallStack.new, [], [],
      List.replicate 16 0⟩ 0 (by decide) (by decide)).1 (by decide),
   (keet8_c8 ⟨200 :: List.replicate 15 0, 0, 0, 0, 0, CallStack.new, [], [],
      List.replicate 16 0⟩ 0 (by decide) (by decide)).2 (by decide)⟩

/-- The key scan finds the least pressed index. -/
theorem find?_range_least (n k : Nat) (p : Nat → Bool) (hk : k < n)
    (hp : p k = true) (hmin : ∀ j, j < k → p j = false) :
    (List.range n).find? p = some k := by
  have h1 : (List.range k).find? p = none := by
    rw [List.find?_eq_none]
    intro x hx
    rw [List.mem_range] at hx
    simp [hmin x hx]
  obtain ⟨m, hm⟩ : ∃ m, n = k + (m + 1) := ⟨n - k - 1, by omega⟩
  subst hm
  rw [List.range_add, List.find?_append, h1, Option.none_or,
    List.range_succ_eq_map]
  simp [hp]

/-- C6: the wait-for-key load: with no keypad flag set the handler rewinds
the program counter by 2 and changes no register; with at least one flag set
it stores the lowest-indexed pressed key into Vx and leaves the program
counter at its post-fetch value. -/
theorem keet8_c6 (e : Emulator) (x : Nat) (hx : x < 16) :
    ((∀ i, i < NUM_KEYS → e.keypad.getD i 0 = 0) →
      e.ld ⟨Instruction.LD, AddressMode.VxKey x⟩ =
        StepResult.ok
          {e with program_counter := (e.program_counter + 65536 - 2) % 65536}) ∧
    (∀ k, k < NUM_KEYS → 0 < e.keypad.getD k 0 →
      (∀ j, j < k → e.keypad.getD j 0 = 0) →
      e.ld ⟨Instruction.LD, AddressMode.VxKey x⟩ =
        StepResult.ok {e with registers := e.registers.set x k}) := by
  constructor
  · intro hnone
    have hfp : firstPressed e.keypad = none := by
      rw [firstPressed, List.find?_eq_none]
      intro i hi
      rw [List.mem_range] at hi
      have hz := hnone i hi
      rw [List.getD_eq_getElem?_getD] at hz
      simp [hz]
    simp only [Emulator.ld, hfp]
  · intro k hk hpk hmin
    have hfp : firstPressed e.keypad = some k := by
      rw [firstPressed]
      apply find?_range_least _ _ _ hk
      · simpa using hpk
      · intro j hj
        have hz := hmin j hj
        rw [List.getD_eq_getElem?_getD] at hz
        simp [hz]
    simp only [Emulator.ld, hfp]

/-- Witness for C6: with an idle keypad the handler rewinds the program
counter from 0x0202 to 0x0200; with keys 5 and 9 pressed it stores 5 into V0
and leaves the program counter alone. -/
theorem keet8_c6_witness :
    (Emulator.ld ⟨List.replicate 16 0, 0, 0x0202, 0, 0, CallStack.new, [], [],
        List.replicate 16 0⟩ ⟨Instruction.LD, AddressMode.VxKey 0⟩ =
      StepResult.ok
        {(⟨List.replicate 16 0, 0, 0x0202, 0, 0, CallStack.new, [], [],
          List.replicate 16 0⟩ : Emulator) with
          program_counter := (0x0202 + 65536 - 2) % 65536}) ∧
    (Emulator.ld ⟨List.replicate 16 0, 0, 0x0202, 0, 0, CallStack.new, [], [],
        ((List.replicate 16 0).set 5 1).set 9 1⟩
        ⟨Instruction.LD, AddressMode.VxKey 0⟩ =
      StepResult.ok
        {(⟨List.replicate 16 0, 0, 0x0202, 0, 0, CallStack.new, [], [],
          ((List.replicate 16 0).set 5 1).set 9 1⟩ : Emulator) with
          registers := (List.replicate 16 0).set 0 5}) :=
  ⟨(keet8_c6 ⟨List.replicate 16 0, 0, 0x0202, 0, 0, CallStack.new, [], [],
      List.replicate 16 0⟩ 0 (by decide)).1 (by decide),
   (keet8_c6 ⟨List.replicate 16 0, 0, 0x0202, 0, 0, CallStack.new, [], [],
      ((List.replicate 16 0).set 5 1).set 9 1⟩ 0 (by decide)).2 5 (by decide)
      (by decide) (by decide)⟩


-- --- C1: step() atomicity ---------------------------------------------------

/-- Every handler checks its failure conditions before mutating anything, so
an instruction that returns an error leaves the emulator exactly as
dispatched. -/
theorem Emulator.exec_err (e : Emulator) (rb : Nat) (oc : OpCode)
    (e' : Emulator) (k : Keet8Error)
    (h : e.exec rb oc = StepResult.err e' k) : e' = e := by
  cases oc with
  | mk instr mode =>
    cases instr <;>
      simp only [Emulator.exec, Emulator.raw, Emulator.cls, Emulator.ret,
        Emulator.sys, Emulator.jp, Emulator.call, Emulator.se, Emulator.sne,
        Emulator.ld, Emulator.add, Emulator.or, Emulator.and, Emulator.xor,
        Emulator.sub, Emulator.shr, Emulator.subn, Emulator.shl, Emulator.rnd,
        Emulator.drw, Emulator.skp, Emulator.sknp] at h <;>
      repeat' split at h
    all_goals
      first
        | rfl
        | ((cases h) <;> rfl)
        | (injection h with h1 h2; exact h1.symm)
        | simp_all

/-- The concrete state for C1: a `RET` (0x00EE) at the reset program counter
with an empty call stack. -/
def stepErrState : Emulator :=
  ⟨List.replicate 16 0, 0, 0x0200, 0, 0, CallStack.new,
    (List.replicate 4096 0).set 0x0201 0xEE, List.replicate 2048 0,
    List.replicate 16 0⟩

set_option maxRecDepth 100000 in
/-- C1 (counterexample): `step()` on a `RET` with an empty call stack returns
the call-stack-empty error, but the resulting state is NOT the pre-step
state: the fetch has already advanced the program counter by 2. -/
theorem keet8_c1_counterexample :
    ∃ e', Emulator.step 0 stepErrState =
        StepResult.err e' Keet8Error.CallStackEmpty ∧ e' ≠ stepErrState := by
  refine ⟨{stepErrState with program_counter := 0x0202}, by rfl, ?_⟩
  intro hcontra
  have hpc := congrArg Emulator.program_counter hcontra
  simp only [stepErrState] at hpc
  omega

/-- C1 (amended): a `step()` that returns an error leaves every component of
the state unchanged except the program counter, which has advanced by 2 (the
fetch), and the timers have not been decremented; a `step()` that returns ok
has executed the complete decoded instruction from the post-fetch state,
followed by the timer decrement. -/
theorem keet8_c1_amended (rb : Nat) (e : Emulator) :
    (∀ e' k, Emulator.step rb e = StepResult.err e' k →
      e' = {e with program_counter := wrap16 (e.program_counter + 2)}) ∧
    (∀ e', Emulator.step rb e = StepResult.ok e' →
      ∃ em,
        Emulator.exec {e with program_counter := wrap16 (e.program_counter + 2)}
          rb (OpCode.fromRaw e.fetchWord) = StepResult.ok em ∧
        e' = tickTimers em) := by
  constructor
  · intro e' k h
    simp only [Emulator.step] at h
    split at h
    case h_1 x e2 heq => cases h
    case h_2 x hne => exact Emulator.exec_err _ _ _ _ _ h
  · intro e' h
    simp only [Emulator.step] at h
    split at h
    case h_1 x e2 heq =>
      injection h with h1
      exact ⟨e2, heq, h1.symm⟩
    case h_2 x hne => exact absurd h (hne e')

set_option maxRecDepth 100000 in
/-- Witness for C1 (amended) at the concrete `RET`-on-empty-stack state. -/
theorem keet8_c1_witness :
    Emulator.step 0 stepErrState =
      StepResult.err {stepErrState with program_counter := 0x0202}
        Keet8Error.CallStackEmpty ∧
    {stepErrState with program_counter := 0x0202} =
      {stepErrState with
        program_counter := wrap16 (stepErrState.program_counter + 2)} :=
  ⟨by rfl,
    (keet8_c1_amended 0 stepErrState).1
      {stepErrState with program_counter := 0x0202} Keet8Error.CallStackEmpty
      (by rfl)⟩

-- --- the draw loop, characterised ------------------------------------------

/-- One XOR toggle of a video cell. -/
def toggleOne (vb : List Nat) (i : Nat) : List Nat :=
  vb.set i (vb.getD i 0 ^^^ 0xFF)

/-- All toggles of a draw call, in loop order. -/
def toggleAll (vb : List Nat) (is : List Nat) : List Nat :=
  is.foldl toggleOne vb

/-- The draw loop restricted to the cell indices it actually touches:
bounds-check, collision-check, toggle. -/
def toggleRun (vb : List Nat) (vf : Nat) : List Nat → Option (List Nat × Nat)
  | [] => some (vb, vf)
  | i :: rest =>
    if i < vb.length then
      toggleRun (toggleOne vb i) (if vb.getD i 0 = 0xFF then 1 else vf) rest
    else none

/-- The screen indices of the set sprite bits, in loop order. -/
def setIdx (mem : List Nat) (idx xp yp : Nat) (ps : List (Nat × Nat)) :
    List Nat :=
  (ps.filter (fun p => decide (0 < spritePx mem idx p.1 p.2))).map
    (fun p => (yp + p.1) * VIDEO_BUFFER_WIDTH + (xp + p.2))

theorem setIdx_cons_pos (mem : List Nat) (idx xp yp r c : Nat)
    (rest : List (Nat × Nat)) (hs : 0 < spritePx mem idx r c) :
    setIdx mem idx xp yp ((r, c) :: rest) =
      ((yp + r) * VIDEO_BUFFER_WIDTH + (xp + c)) :: setIdx mem idx xp yp rest := by
  simp [setIdx, List.filter_cons, hs]

theorem setIdx_cons_neg (mem : List Nat) (idx xp yp r c : Nat)
    (rest : List (Nat × Nat)) (hs : ¬ 0 < spritePx mem idx r c) :
    setIdx mem idx xp yp ((r, c) :: rest) = setIdx mem idx xp yp rest := by
  simp [setIdx, List.filter_cons, hs]

theorem drwAux_eq_toggleRun (mem : List Nat) (idx xp yp : Nat)
    (ps : List (Nat × Nat)) :
    ∀ vb vf, drwAux mem idx xp yp ps vb vf =
      toggleRun vb vf (setIdx mem idx xp yp ps) := by
  induction ps with
  | nil => intro vb vf; rfl
  | cons p rest ih =>
    intro vb vf
    obtain ⟨r, c⟩ := p
    by_cases hs : 0 < spritePx mem idx r c
    · rw [setIdx_cons_pos mem idx xp yp r c rest hs, toggleRun]
      simp only [drwAux]
      rw [if_pos hs]
      split
      · rw [ih]; rfl
      · rfl
    · rw [setIdx_cons_neg mem idx xp yp r c rest hs]
      simp only [drwAux]
      rw [if_neg hs]
      exact ih vb vf

theorem toggleOne_length (vb : List Nat) (i : Nat) :
    (toggleOne vb i).length = vb.length := by
  simp [toggleOne]

theorem toggleAll_length (is : List Nat) :
    ∀ vb, (toggleAll vb is).length = vb.length := by
  induction is with
  | nil => intro vb; rfl
  | cons i rest ih =>
    intro vb
    rw [toggleAll, List.foldl_cons, ← toggleAll, ih, toggleOne_length]

theorem getD_toggleOne_ne (vb : List Nat) (i j : Nat) (h : i ≠ j) :
    (toggleOne vb i).getD j 0 = vb.getD j 0 :=
  getD_set_ne _ _ _ _ h

theorem getD_toggleOne_self (vb : List Nat) (i : Nat) (h : i < vb.length) :
    (toggleOne vb i).getD i 0 = vb.getD i 0 ^^^ 0xFF :=
  getD_set_self _ _ _ h

theorem toggleRun_none_iff (is : List Nat) :
    ∀ vb vf, toggleRun vb vf is = none ↔ ∃ i ∈ is, vb.length ≤ i := by
  induction is with
  | nil => intro vb vf; simp [toggleRun]
  | cons i rest ih =>
    intro vb vf
    by_cases hlt : i < vb.length
    · rw [toggleRun, if_pos hlt, ih]
      constructor
      · rintro ⟨j, hj, hle⟩
        exact ⟨j, List.mem_cons_of_mem _ hj, by rwa [toggleOne_length] at hle⟩
      · rintro ⟨j, hj, hle⟩
        rcases List.mem_cons.mp hj with rfl | hj'
        · omega
        · exact ⟨j, hj', by rwa [toggleOne_length]⟩
    · rw [toggleRun, if_neg hlt]
      simp only [true_iff]
      exact ⟨i, List.mem_cons_self i rest, by omega⟩

theorem any_congr_mem (l : List Nat) (f g : Nat → Bool)
    (h : ∀ i ∈ l, f i = g i) : l.any f = l.any g := by
  induction l with
  | nil => rfl
  | cons i rest ih =>
    simp only [List.any_cons]
    rw [h i (List.mem_cons_self i rest),
      ih (fun j hj => h j (List.mem_cons_of_mem _ hj))]

theorem toggleRun_ok (is : List Nat) :
    ∀ vb vf, is.Nodup → (∀ i ∈ is, i < vb.length) →
      toggleRun vb vf is = some (toggleAll vb is,
        if is.any (fun i => vb.getD i 0 == 0xFF) then 1 else vf) := by
  induction is with
  | nil => intro vb vf _ _; simp [toggleRun, toggleAll]
  | cons i rest ih =>
    intro vb vf hnd hbd
    have hi : i < vb.length := hbd i (List.mem_cons_self i rest)
    have hnotin : i ∉ rest := (List.nodup_cons.mp hnd).1
    rw [toggleRun, if_pos hi,
      ih _ _ (List.nodup_cons.mp hnd).2
        (fun j hj => by
          rw [toggleOne_length]; exact hbd j (List.mem_cons_of_mem _ hj))]
    have hany : rest.any (fun j => (toggleOne vb i).getD j 0 == 0xFF) =
        rest.any (fun j => vb.getD j 0 == 0xFF) := by
      apply any_congr_mem
      intro j hj
      rw [getD_toggleOne_ne vb i j (fun hij => hnotin (hij ▸ hj))]
    rw [hany]
    have hta : toggleAll vb (i :: rest) = toggleAll (toggleOne vb i) rest := rfl
    rw [← hta]
    simp only [List.any_cons, List.any_eq_true, List.getD_eq_getElem?_getD,
      Bool.or_eq_true, beq_iff_eq, Option.some.injEq, Prod.mk.injEq, true_and]
    by_cases hex : ∃ x ∈ rest, vb[x]?.getD 0 = 255
    · rw [if_pos hex, if_pos (Or.inr hex)]
    · by_cases hvi : vb[i]?.getD 0 = 255
      · rw [if_neg hex, if_pos hvi, if_pos (Or.inl hvi)]
      · rw [if_neg hex, if_neg hvi, if_neg (fun hc => hc.elim hvi hex)]

theorem toggleOne_comm (vb : List Nat) (i j : Nat) (h : i ≠ j) :
    toggleOne (toggleOne vb i) j = toggleOne (toggleOne vb j) i := by
  unfold toggleOne
  rw [getD_set_ne _ _ _ _ h, getD_set_ne _ _ _ _ (Ne.symm h),
    List.set_comm _ _ _ h]

theorem toggleAll_toggleOne_comm (is : List Nat) (i : Nat) (h : i ∉ is) :
    ∀ vb, toggleAll (toggleOne vb i) is = toggleOne (toggleAll vb is) i := by
  induction is with
  | nil => intro vb; rfl
  | cons j rest ih =>
    intro vb
    have hij : i ≠ j := fun hc => h (hc ▸ List.mem_cons_self j rest)
    have hrest : i ∉ rest := fun hc => h (List.mem_cons_of_mem _ hc)
    calc toggleAll (toggleOne vb i) (j :: rest)
        = toggleAll (toggleOne (toggleOne vb i) j) rest := rfl
      _ = toggleAll (toggleOne (toggleOne vb j) i) rest := by
            rw [toggleOne_comm vb i j hij]
      _ = toggleOne (toggleAll (toggleOne vb j) rest) i := ih hrest _
      _ = toggleOne (toggleAll vb (j :: rest)) i := rfl

theorem set_getD_self (l : List Nat) (i : Nat) (h : i < l.length) :
    l.set i (l.getD i 0) = l := by
  apply List.ext_getElem?
  intro j
  by_cases hij : i = j
  · subst hij
    rw [List.getElem?_set_self h, List.getD_eq_getElem?_getD,
      List.getElem?_eq_getElem h]
    rfl
  · rw [List.getElem?_set_ne hij]

theorem toggleOne_toggleOne (vb : List Nat) (i : Nat) (h : i < vb.length) :
    toggleOne (toggleOne vb i) i = vb := by
  unfold toggleOne
  rw [getD_set_self _ _ _ h, Nat.xor_cancel_right, List.set_set,
    set_getD_self _ _ h]

theorem toggleAll_toggleAll (is : List Nat) :
    ∀ vb, is.Nodup → (∀ i ∈ is, i < vb.length) →
      toggleAll (toggleAll vb is) is = vb := by
  induction is with
  | nil => intro vb _ _; rfl
  | cons i rest ih =>
    intro vb hnd hbd
    have hi : i < vb.length := hbd i (List.mem_cons_self i rest)
    have hnotin : i ∉ rest := (List.nodup_cons.mp hnd).1
    calc toggleAll (toggleAll vb (i :: rest)) (i :: rest)
        = toggleAll (toggleOne (toggleAll (toggleOne vb i) rest) i) rest := rfl
      _ = toggleAll (toggleAll (toggleOne (toggleOne vb i) i) rest) rest := by
            rw [← toggleAll_toggleOne_comm rest i hnotin]
      _ = toggleAll (toggleAll vb rest) rest := by
            rw [toggleOne_toggleOne vb i hi]
      _ = vb := ih vb (List.nodup_cons.mp hnd).2
            (fun j hj => hbd j (List.mem_cons_of_mem _ hj))

theorem getD_toggleAll_not_mem (is : List Nat) (i : Nat) (h : i ∉ is) :
    ∀ vb, (toggleAll vb is).getD i 0 = vb.getD i 0 := by
  induction is with
  | nil => intro vb; rfl
  | cons j rest ih =>
    intro vb
    have hij : j ≠ i := fun hc => h (hc ▸ List.mem_cons_self j rest)
    have hrest : i ∉ rest := fun hc => h (List.mem_cons_of_mem _ hc)
    calc (toggleAll vb (j :: rest)).getD i 0
        = (toggleAll (toggleOne vb j) rest).getD i 0 := rfl
      _ = (toggleOne vb j).getD i 0 := ih hrest _
      _ = vb.getD i 0 := getD_toggleOne_ne vb j i hij

theorem getD_toggleAll_mem (is : List Nat) :
    ∀ vb i, i ∈ is → is.Nodup → i < vb.length →
      (toggleAll vb is).getD i 0 = vb.getD i 0 ^^^ 0xFF := by
  induction is with
  | nil => intro vb i hm; cases hm
  | cons j rest ih =>
    intro vb i hm hnd hlen
    have hjnotin : j ∉ rest := (List.nodup_cons.mp hnd).1
    rcases List.mem_cons.mp hm with rfl | hm'
    · calc (toggleAll vb (i :: rest)).getD i 0
          = (toggleAll (toggleOne vb i) rest).getD i 0 := rfl
        _ = (toggleOne vb i).getD i 0 := getD_toggleAll_not_mem rest i hjnotin _
        _ = vb.getD i 0 ^^^ 0xFF := getD_toggleOne_self vb i hlen
    · have hij : j ≠ i := fun hc => hjnotin (hc ▸ hm')
      calc (toggleAll vb (j :: rest)).getD i 0
          = (toggleAll (toggleOne vb j) rest).getD i 0 := rfl
        _ = (toggleOne vb j).getD i 0 ^^^ 0xFF := by
              apply ih _ i hm' (List.nodup_cons.mp hnd).2
              rw [toggleOne_length]; exact hlen
        _ = vb.getD i 0 ^^^ 0xFF := by rw [getD_toggleOne_ne vb j i hij]

-- --- pairList and setIdx facts ----------------------------------------------

theorem pairList_mem (h : Nat) (p : Nat × Nat) :
    p ∈ pairList h ↔ p.1 < h ∧ p.2 < 8 := by
  obtain ⟨r, c⟩ := p
  simp only [pairList, List.mem_flatMap, List.mem_map, List.mem_range]
  constructor
  · rintro ⟨a, ha, b, hb, heq⟩
    cases heq
    exact ⟨ha, hb⟩
  · rintro ⟨hr, hc⟩
    exact ⟨r, hr, c, hc, rfl⟩

theorem pairList_succ (h : Nat) :
    pairList (h + 1) = pairList h ++ (List.range 8).map (fun c => (h, c)) := by
  simp [pairList, List.range_succ]

theorem pairList_nodup (h : Nat) : (pairList h).Nodup := by
  induction h with
  | zero => simp [pairList]
  | succ n ih =>
    rw [pairList_succ]
    refine List.Nodup.append ih ?_ ?_
    · refine List.Nodup.map ?_ (List.nodup_range 8)
      intro a b hab
      simpa using hab
    · intro p hp1 hp2
      have h1 := (pairList_mem n p).mp hp1
      simp only [List.mem_map] at hp2
      obtain ⟨c, _, hpc⟩ := hp2
      rw [← hpc] at h1
      omega

theorem setIdx_mem (mem : List Nat) (idx xp yp h : Nat) (i : Nat) :
    i ∈ setIdx mem idx xp yp (pairList h) ↔
      ∃ r c, r < h ∧ c < 8 ∧ 0 < spritePx mem idx r c ∧
        i = (yp + r) * VIDEO_BUFFER_WIDTH + (xp + c) := by
  simp only [setIdx, List.mem_map, List.mem_filter, decide_eq_true_eq]
  constructor
  · rintro ⟨⟨r, c⟩, ⟨hmem, hpx⟩, heq⟩
    have := (pairList_mem h (r, c)).mp hmem
    exact ⟨r, c, this.1, this.2, hpx, heq.symm⟩
  · rintro ⟨r, c, hr, hc, hpx, heq⟩
    exact ⟨(r, c), ⟨(pairList_mem h (r, c)).mpr ⟨hr, hc⟩, hpx⟩, heq.symm⟩

theorem setIdx_nodup (mem : List Nat) (idx xp yp h : Nat)
    (hxp : xp + 7 < 64) : (setIdx mem idx xp yp (pairList h)).Nodup := by
  apply List.Nodup.map_on ?_ (List.Nodup.filter _ (pairList_nodup h))
  intro p hp q hq hfq
  have hp8 : p.2 < 8 := ((pairList_mem h p).mp (List.mem_of_mem_filter hp)).2
  have hq8 : q.2 < 8 := ((pairList_mem h q).mp (List.mem_of_mem_filter hq)).2
  simp only [VIDEO_BUFFER_WIDTH] at hfq
  obtain ⟨p1, p2⟩ := p
  obtain ⟨q1, q2⟩ := q
  simp only at hfq hp8 hq8
  have : p1 = q1 ∧ p2 = q2 := by omega
  rw [this.1, this.2]

theorem setIdx_bound (mem : List Nat) (idx xp yp h : Nat)
    (hxp : xp + 7 < 64) (hyn : yp + h ≤ 32) :
    ∀ i ∈ setIdx mem idx xp yp (pairList h), i < 2048 := by
  intro i hi
  obtain ⟨r, c, hr, hc, _, rfl⟩ := (setIdx_mem mem idx xp yp h i).mp hi
  simp only [VIDEO_BUFFER_WIDTH]
  omega

/-- `Emulator::drw` in terms of the characterised loop. -/
theorem drw_eq (e : Emulator) (x y n : Nat) :
    e.drw ⟨Instruction.DRW, AddressMode.VxVyN x y n⟩ =
      (match toggleRun e.video_buffer 0
          (setIdx e.memory e.idx (e.registers.getD x 0 % VIDEO_BUFFER_WIDTH)
            (e.registers.getD y 0 % VIDEO_BUFFER_HEIGHT) (pairList n)) with
       | some (vb, vf) =>
         StepResult.ok {e with
           registers := (e.registers.set 0x0F 0).set 0x0F vf,
           video_buffer := vb}
       | none => StepResult.panic) := by
  simp only [Emulator.drw]
  rw [drwAux_eq_toggleRun]

/-- A draw whose set pixels include an out-of-bounds cell index aborts. -/
theorem drw_panic_of (e : Emulator) (x y n : Nat)
    (hex : ∃ i ∈ setIdx e.memory e.idx
        (e.registers.getD x 0 % VIDEO_BUFFER_WIDTH)
        (e.registers.getD y 0 % VIDEO_BUFFER_HEIGHT) (pairList n),
      e.video_buffer.length ≤ i) :
    e.drw ⟨Instruction.DRW, AddressMode.VxVyN x y n⟩ = StepResult.panic := by
  rw [drw_eq, (toggleRun_none_iff _ _ _).mpr hex]

-- --- C2: the draw instruction can abort -------------------------------------

/-- The concrete state for C2: origin (0, 31) — the bottom row — with a
two-row sprite of 0xF0 bytes at I = 0x0050. -/
def drwPanicState : Emulator :=
  ⟨(List.replicate 16 0).set 1 31, 0x0050, 0x0200, 0, 0, CallStack.new,
    ((List.replicate 4096 0).set 0x50 0xF0).set 0x51 0xF0,
    List.replicate 2048 0, List.replicate 16 0⟩

/-- C2 (code bug): drawing a 2-row sprite at Y = 31 crosses the bottom grid
edge; the second row computes cell index (31 + 1) * 64 + 0 = 2048 on the
2048-cell buffer and the process aborts (Rust index-out-of-bounds panic)
instead of wrapping, clipping, or returning an error. -/
theorem keet8_c2_draw_bottom_edge_aborts :
    Emulator.drw drwPanicState ⟨Instruction.DRW, AddressMode.VxVyN 0 1 2⟩ =
      StepResult.panic := by
  apply drw_panic_of
  refine ⟨2048, ?_, ?_⟩
  · rw [setIdx_mem]
    exact ⟨1, 0, by omega, by omega, by decide, by decide⟩
  · show (List.replicate 2048 0).length ≤ 2048
    rw [List.length_replicate]


-- --- C7: double draw --------------------------------------------------------

/-- A fully in-bounds draw: toggles exactly the set-pixel cells and records a
collision iff one of them was lit. -/
theorem drw_ok (e : Emulator) (x y n : Nat) (ixs : List Nat)
    (hixs : setIdx e.memory e.idx (e.registers.getD x 0 % VIDEO_BUFFER_WIDTH)
      (e.registers.getD y 0 % VIDEO_BUFFER_HEIGHT) (pairList n) = ixs)
    (hnd : ixs.Nodup) (hbd : ∀ i ∈ ixs, i < e.video_buffer.length) :
    e.drw ⟨Instruction.DRW, AddressMode.VxVyN x y n⟩ = StepResult.ok {e with
      registers := (e.registers.set 0x0F 0).set 0x0F
        (if ixs.any (fun i => e.video_buffer.getD i 0 == 0xFF) then 1 else 0),
      video_buffer := toggleAll e.video_buffer ixs} := by
  subst hixs
  rw [drw_eq, toggleRun_ok _ _ _ hnd hbd]

/-- The concrete state for the C7 counterexample: a one-pixel sprite (0x80 at
I = 0) drawn at the origin onto a display whose only touched cell is lit. -/
def drwTwiceState : Emulator :=
  ⟨List.replicate 16 0, 0, 0x0200, 0, 0, CallStack.new,
    (List.replicate 4096 0).set 0 0x80,
    (List.replicate 2048 0).set 0 0xFF, List.replicate 16 0⟩

/-- The state after the first of the two draws. -/
def drwTwiceMid : Emulator :=
  {drwTwiceState with
    registers := (drwTwiceState.registers.set 0x0F 0).set 0x0F 1,
    video_buffer := drwTwiceState.video_buffer.set 0 (0xFF ^^^ 0xFF)}

/-- The state after the second draw. -/
def drwTwiceEnd : Emulator :=
  {drwTwiceMid with
    registers := (drwTwiceMid.registers.set 0x0F 0).set 0x0F 0,
    video_buffer := drwTwiceMid.video_buffer.set 0 ((0xFF ^^^ 0xFF) ^^^ 0xFF)}

/-- C7 (counterexample): drawing the same non-zero sprite twice at the same
coordinates leaves VF = 0 — not 1 — when every touched cell was lit before
the first draw: the second draw finds the cells dark and reports no
collision. -/
theorem keet8_c7_counterexample :
    0 < spritePx drwTwiceState.memory drwTwiceState.idx 0 0 ∧
    ∃ e1 e2,
      Emulator.drw drwTwiceState ⟨Instruction.DRW, AddressMode.VxVyN 0 1 1⟩ =
        StepResult.ok e1 ∧
      Emulator.drw e1 ⟨Instruction.DRW, AddressMode.VxVyN 0 1 1⟩ =
        StepResult.ok e2 ∧
      e2.registers.getD 0x0F 0 = 0 := by
  refine ⟨by decide, drwTwiceMid, drwTwiceEnd, ?_, ?_, ?_⟩
  · have hixs : setIdx drwTwiceState.memory drwTwiceState.idx
        (drwTwiceState.registers.getD 0 0 % VIDEO_BUFFER_WIDTH)
        (drwTwiceState.registers.getD 1 0 % VIDEO_BUFFER_HEIGHT)
        (pairList 1) = [0] := by decide
    have hvblen : drwTwiceState.video_buffer.length = 2048 := by
      show ((List.replicate 2048 0).set 0 0xFF).length = 2048
      rw [List.length_set, List.length_replicate]
    have h1 := drw_ok drwTwiceState 0 1 1 [0] hixs (by decide)
      (by intro i hi; rw [List.mem_singleton] at hi; subst hi; omega)
    have hg : drwTwiceState.video_buffer.getD 0 0 = 0xFF := by
      show ((List.replicate 2048 0).set 0 0xFF).getD 0 0 = 0xFF
      apply getD_set_self
      rw [List.length_replicate]
      omega
    have hany : ([0].any
        (fun i => drwTwiceState.video_buffer.getD i 0 == 0xFF)) = true := by
      rw [List.any_cons, List.any_nil, Bool.or_false, hg]
      rfl
    rw [h1, hany]
    show StepResult.ok {drwTwiceState with
      registers := (drwTwiceState.registers.set 0x0F 0).set 0x0F 1,
      video_buffer :=
        drwTwiceState.video_buffer.set 0
          (drwTwiceState.video_buffer.getD 0 0 ^^^ 0xFF)} =
      StepResult.ok drwTwiceMid
    rw [hg]
    rfl
  · have hixs : setIdx drwTwiceMid.memory drwTwiceMid.idx
        (drwTwiceMid.registers.getD 0 0 % VIDEO_BUFFER_WIDTH)
        (drwTwiceMid.registers.getD 1 0 % VIDEO_BUFFER_HEIGHT)
        (pairList 1) = [0] := by decide
    have hvblen : drwTwiceMid.video_buffer.length = 2048 := by
      show (((List.replicate 2048 0).set 0 0xFF).set 0 (0xFF ^^^ 0xFF)).length
        = 2048
      rw [List.length_set, List.length_set, List.length_replicate]
    have h2 := drw_ok drwTwiceMid 0 1 1 [0] hixs (by decide)
      (by intro i hi; rw [List.mem_singleton] at hi; subst hi; omega)
    have hg1 : drwTwiceMid.video_buffer.getD 0 0 = 0xFF ^^^ 0xFF := by
      show (((List.replicate 2048 0).set 0 0xFF).set 0 (0xFF ^^^ 0xFF)).getD 0 0
        = 0xFF ^^^ 0xFF
      rw [List.set_set]
      apply getD_set_self
      rw [List.length_replicate]
      omega
    have hany : ([0].any
        (fun i => drwTwiceMid.video_buffer.getD i 0 == 0xFF)) = false := by
      rw [List.any_cons, List.any_nil, Bool.or_false, hg1]
      rfl
    rw [h2, hany]
    show StepResult.ok {drwTwiceMid with
      registers := (drwTwiceMid.registers.set 0x0F 0).set 0x0F 0,
      video_buffer :=
        drwTwiceMid.video_buffer.set 0
          (drwTwiceMid.video_buffer.getD 0 0 ^^^ 0xFF)} =
      StepResult.ok drwTwiceEnd
    rw [hg1]
    rfl
  · show ((drwTwiceMid.registers.set 0x0F 0).set 0x0F 0).getD 0x0F 0 = 0
    apply getD_set_self
    show 0x0F <
      ((((List.replicate 16 0).set 0x0F 0).set 0x0F 1).set 0x0F 0).length
    rw [List.length_set, List.length_set, List.length_set,
      List.length_replicate]
    omega


/-- C7 (amended): for a sprite drawn fully inside the grid (origin registers
distinct from VF, no right/bottom edge crossing) on a display whose cells are
0 or 0xFF, drawing twice with the same origin registers, index register and
height restores every display cell to its pre-draw value, and VF after the
second draw is 1 exactly when at least one touched cell was unlit before the
first draw (it is 0 when every touched cell was lit, which is the correction
to the claim). -/
theorem keet8_c7_amended (e : Emulator) (x y n : Nat)
    (hx : x < 16) (hy : y < 16) (hxf : x ≠ 0x0F) (hyf : y ≠ 0x0F)
    (hreg : e.registers.length = 16)
    (hvb : e.video_buffer.length = 2048)
    (hbin : ∀ i, i < 2048 →
      e.video_buffer.getD i 0 = 0 ∨ e.video_buffer.getD i 0 = 0xFF)
    (hxp : e.registers.getD x 0 % VIDEO_BUFFER_WIDTH + 7 < 64)
    (hyn : e.registers.getD y 0 % VIDEO_BUFFER_HEIGHT + n ≤ 32) :
    ∃ e1 e2,
      e.drw ⟨Instruction.DRW, AddressMode.VxVyN x y n⟩ = StepResult.ok e1 ∧
      e1.drw ⟨Instruction.DRW, AddressMode.VxVyN x y n⟩ = StepResult.ok e2 ∧
      e2.video_buffer = e.video_buffer ∧
      (e2.registers.getD 0x0F 0 = 1 ↔
        ∃ r c, r < n ∧ c < 8 ∧ 0 < spritePx e.memory e.idx r c ∧
          e.video_buffer.getD
            ((e.registers.getD y 0 % VIDEO_BUFFER_HEIGHT + r) *
                VIDEO_BUFFER_WIDTH +
              (e.registers.getD x 0 % VIDEO_BUFFER_WIDTH + c)) 0 ≠ 0xFF) := by
  set ixs := setIdx e.memory e.idx (e.registers.getD x 0 % VIDEO_BUFFER_WIDTH)
    (e.registers.getD y 0 % VIDEO_BUFFER_HEIGHT) (pairList n) with hixsdef
  have hnd : ixs.Nodup := setIdx_nodup _ _ _ _ _ hxp
  have hbd2048 : ∀ i ∈ ixs, i < 2048 :=
    setIdx_bound e.memory e.idx _ _ n hxp hyn
  have hbd : ∀ i ∈ ixs, i < e.video_buffer.length := fun i hi => by
    rw [hvb]; exact hbd2048 i hi
  have h1 := drw_ok e x y n ixs hixsdef.symm hnd hbd
  obtain ⟨E1, v1, hE1, hE1mem, hE1idx, hE1x, hE1y, hE1vb, hE1regs⟩ :
      ∃ E1 v1,
        e.drw ⟨Instruction.DRW, AddressMode.VxVyN x y n⟩ =
          StepResult.ok E1 ∧
        E1.memory = e.memory ∧ E1.idx = e.idx ∧
        E1.registers.getD x 0 = e.registers.getD x 0 ∧
        E1.registers.getD y 0 = e.registers.getD y 0 ∧
        E1.video_buffer = toggleAll e.video_buffer ixs ∧
        E1.registers = (e.registers.set 0x0F 0).set 0x0F v1 := by
    refine ⟨_, _, h1, rfl, rfl, ?_, ?_, rfl, rfl⟩
    · show ((e.registers.set 0x0F 0).set 0x0F _).getD x 0 =
        e.registers.getD x 0
      rw [getD_set_ne _ 0x0F x _ (Ne.symm hxf),
        getD_set_ne _ 0x0F x _ (Ne.symm hxf)]
    · show ((e.registers.set 0x0F 0).set 0x0F _).getD y 0 =
        e.registers.getD y 0
      rw [getD_set_ne _ 0x0F y _ (Ne.symm hyf),
        getD_set_ne _ 0x0F y _ (Ne.symm hyf)]
  have hixs2 : setIdx E1.memory E1.idx
      (E1.registers.getD x 0 % VIDEO_BUFFER_WIDTH)
      (E1.registers.getD y 0 % VIDEO_BUFFER_HEIGHT) (pairList n) = ixs := by
    rw [hE1mem, hE1idx, hE1x, hE1y]
  have hbd1 : ∀ i ∈ ixs, i < E1.video_buffer.length := fun i hi => by
    rw [hE1vb, toggleAll_length, hvb]; exact hbd2048 i hi
  have h2 := drw_ok E1 x y n ixs hixs2 hnd hbd1
  refine ⟨E1, _, hE1, h2, ?_, ?_⟩
  · show toggleAll E1.video_buffer ixs = e.video_buffer
    rw [hE1vb]
    exact toggleAll_toggleAll ixs e.video_buffer hnd hbd
  · show ((E1.registers.set 0x0F 0).set 0x0F
      (if ixs.any (fun i => E1.video_buffer.getD i 0 == 0xFF) then 1
        else 0)).getD 0x0F 0 = 1 ↔ _
    have hlen : (E1.registers.set 0x0F 0).length = 16 := by
      rw [List.length_set, hE1regs, List.length_set, List.length_set, hreg]
    rw [getD_set_self _ _ _ (by rw [hlen]; omega)]
    have hmemiff : ∀ i, i ∈ ixs →
        (E1.video_buffer.getD i 0 = 0xFF ↔
          e.video_buffer.getD i 0 ≠ 0xFF) := by
      intro i hi
      rw [hE1vb, getD_toggleAll_mem ixs e.video_buffer i hi hnd (hbd i hi)]
      rcases hbin i (hbd2048 i hi) with h0 | hF
      · rw [h0]
        constructor
        · intro _; omega
        · intro _; decide
      · rw [hF]
        constructor
        · intro hc; rw [Nat.xor_self] at hc; omega
        · intro hc; exact absurd rfl hc
    by_cases hC : ixs.any (fun i => E1.video_buffer.getD i 0 == 0xFF) = true
    · rw [if_pos hC]
      simp only [List.any_eq_true, beq_iff_eq] at hC
      constructor
      · intro _
        obtain ⟨i, hi, hival⟩ := hC
        obtain ⟨r, c, hr, hc8, hpx, hform⟩ :=
          (setIdx_mem e.memory e.idx _ _ n i).mp (hixsdef ▸ hi)
        exact ⟨r, c, hr, hc8, hpx, by
          rw [← hform]; exact (hmemiff i hi).mp hival⟩
      · intro _; rfl
    · rw [if_neg hC]
      constructor
      · intro hc; omega
      · rintro ⟨r, c, hr, hc8, hpx, hne⟩
        exfalso
        apply hC
        have hi : ((e.registers.getD y 0 % VIDEO_BUFFER_HEIGHT + r) *
            VIDEO_BUFFER_WIDTH +
            (e.registers.getD x 0 % VIDEO_BUFFER_WIDTH + c)) ∈ ixs := by
          rw [hixsdef]
          exact (setIdx_mem e.memory e.idx _ _ n _).mpr
            ⟨r, c, hr, hc8, hpx, rfl⟩
        rw [List.any_eq_true]
        exact ⟨_, hi, by rw [beq_iff_eq]; exact (hmemiff _ hi).mpr hne⟩


/-- The concrete state for the C7 witness: a one-pixel sprite at the origin
over an all-dark display. -/
def drwCleanState : Emulator :=
  ⟨List.replicate 16 0, 0, 0x0200, 0, 0, CallStack.new,
    (List.replicate 4096 0).set 0 0x80,
    List.replicate 2048 0, List.replicate 16 0⟩

/-- Witness for C7 (amended) at the all-dark display state. -/
theorem keet8_c7_witness :
    ∃ e1 e2,
      Emulator.drw drwCleanState ⟨Instruction.DRW, AddressMode.VxVyN 0 1 1⟩ =
        StepResult.ok e1 ∧
      Emulator.drw e1 ⟨Instruction.DRW, AddressMode.VxVyN 0 1 1⟩ =
        StepResult.ok e2 ∧
      e2.video_buffer = drwCleanState.video_buffer ∧
      (e2.registers.getD 0x0F 0 = 1 ↔
        ∃ r c, r < 1 ∧ c < 8 ∧
          0 < spritePx drwCleanState.memory drwCleanState.idx r c ∧
          drwCleanState.video_buffer.getD
            ((drwCleanState.registers.getD 1 0 % VIDEO_BUFFER_HEIGHT + r) *
                VIDEO_BUFFER_WIDTH +
              (drwCleanState.registers.getD 0 0 % VIDEO_BUFFER_WIDTH + c)) 0 ≠
            0xFF) :=
  keet8_c7_amended drwCleanState 0 1 1 (by decide) (by decide) (by decide)
    (by decide)
    (by show (List.replicate 16 0).length = 16; rw [List.length_replicate])
    (by show (List.replicate 2048 0).length = 2048; rw [List.length_replicate])
    (by
      intro i hi
      left
      show (List.replicate 2048 0).getD i 0 = 0
      rw [List.getD_eq_getElem?_getD, List.getElem?_getD_replicate_default_eq])
    (by decide) (by decide)

end Keet8
